import Mathlib

/-!
Verification of the voice-session and transcoding subsystems of a per-guild
media playback bot.  Python sources are shallowly embedded: pure arithmetic
becomes functions over `ℚ`/`ℤ`/`ℕ`, stateful methods become explicit state
passing, and the external encoder / transport are abstracted as outcome
functions supplied by the environment.
-/

namespace MusicBot

/-!  Bitrate planner

Embeds the bitrate arithmetic of `MediaHandler._try_compression`
(src/cogs/media_handler.py lines 595-607): Python `int()` truncates toward
zero, which on the nonnegative operands used here coincides with the floor.
-/

/-- Python `int()` applied to a rational: truncation toward zero. -/
def pyInt (q : ℚ) : ℤ :=
  if 0 ≤ q then ⌊q⌋ else -⌊-q⌋

/-- Constant `self.target_file_size = 8 * 1024 * 1024` from `MediaHandler.__init__`. -/
def targetFileSize : ℕ := 8 * 1024 * 1024

/-- Constant `self.max_file_size = 10 * 1024 * 1024` from `MediaHandler.__init__`. -/
def maxFileSize : ℕ := 10 * 1024 * 1024

/-- Bitrate planning from `_try_compression`:
`target_size_bits = target * 8`;
`available_bitrate = int((target_size_bits / duration) * overhead_factor)`;
`target_video_bitrate_bps = available_bitrate - audio_bitrate_bps`;
`max(target_video_bitrate_bps, min_video_bitrate)`. -/
def planBitrate (durationSeconds : ℚ) (targetSizeBytes : ℕ) (audioBitrateBps : ℤ)
    (overheadFactor : ℚ) (minVideoBitrateBps : ℤ) : ℤ :=
  let targetSizeBits : ℚ := (targetSizeBytes : ℚ) * 8
  let availableBitrate : ℤ := pyInt (targetSizeBits / durationSeconds * overheadFactor)
  max (availableBitrate - audioBitrateBps) minVideoBitrateBps

/-- The formula exactly as the spec words it:
`max(minVideoBitrateBps, floor((targetSizeBytes*8*overheadFactor)/durationSeconds) - audioBitrateBps)`. -/
def planBitrateSpec (durationSeconds : ℚ) (targetSizeBytes : ℕ) (audioBitrateBps : ℤ)
    (overheadFactor : ℚ) (minVideoBitrateBps : ℤ) : ℤ :=
  max minVideoBitrateBps
    (⌊(targetSizeBytes : ℚ) * 8 * overheadFactor / durationSeconds⌋ - audioBitrateBps)

theorem pyInt_of_nonneg {q : ℚ} (h : 0 ≤ q) : pyInt q = ⌊q⌋ := by
  simp [pyInt, h]

theorem planBitrate_eq_spec (d : ℚ) (T : ℕ) (a : ℤ) (ov : ℚ) (m : ℤ)
    (hd : 0 < d) (hov : 0 ≤ ov) :
    planBitrate d T a ov m = planBitrateSpec d T a ov m := by
  have harg : (0 : ℚ) ≤ (T : ℚ) * 8 / d * ov := by positivity
  have hre : (T : ℚ) * 8 / d * ov = (T : ℚ) * 8 * ov / d := by
    field_simp
  rw [planBitrate, planBitrateSpec, pyInt_of_nonneg harg, hre, max_comm]

theorem planBitrate_ge_min (d : ℚ) (T : ℕ) (a : ℤ) (ov : ℚ) (m : ℤ) :
    m ≤ planBitrate d T a ov m :=
  le_max_right _ _

/-!  Transcode pipeline

Embeds `MediaHandler._process_video_file`, `_compress_video`,
`_try_compression` and `_try_aggressive_compression`.  The external prober
and the two-pass encoder subprocesses are abstracted by a `TranscodeEnv`:
`encode i v` is the output size produced by encode attempt `i` when driven
at video bitrate `v`, or `none` when a pass exits nonzero.  Attempt indices
follow the call sites in order: 0 = H.265+Opus, 1 = H.264+Opus,
2 = H.264+AAC, 3 = aggressive H.265 (480p), 4 = aggressive H.264 (480p).
-/

structure TranscodeEnv where
  origSize : ℕ
  probeFails : Bool
  probeHasVideo : Bool
  probeDuration : ℚ
  encode : ℕ → ℤ → Option ℕ

/-- Initial bitrate computed in `_compress_video` lines 519-530:
`target_bitrate_bps = int(target_size_bits / duration)`;
`target_video_bitrate = int((target_bitrate_bps - audio_bitrate_bps) * 0.9)`;
`max(target_video_bitrate, 150 * 1000)`. -/
def compressVideoBitrate (duration : ℚ) : ℤ :=
  let targetSizeBits : ℚ := (targetFileSize : ℚ) * 8
  let targetBitrateBps : ℤ := pyInt (targetSizeBits / duration)
  let targetVideoBitrate : ℤ := pyInt (((targetBitrateBps - 48000 : ℤ) : ℚ) * (9 / 10))
  max targetVideoBitrate 150000

/-- Encoder invocation inside `_try_compression`: re-probes the duration,
bails out on probe failure or non-positive duration, otherwise drives the
two-pass encoder at the planned bitrate (floor 80 kbps for H.265, 150 kbps
for H.264) and yields the output size on a zero exit. -/
def attemptOutput (env : TranscodeEnv) (idx : ℕ) (isH265 : Bool) : Option ℕ :=
  if env.probeFails then none
  else if env.probeDuration ≤ 0 then none
  else
    let minVideoBitrate : ℤ := if isH265 then 80000 else 150000
    env.encode idx (planBitrate env.probeDuration targetFileSize 48000 (19 / 20) minVideoBitrate)

/-- Result of `_try_compression`: true only when the encode succeeded and the
output is within the 5% tolerance (`actual_size <= target_file_size * 1.05`);
probe failure, invalid duration, encoder failure and over-tolerance output
all yield the same `false`. -/
def tryCompression (env : TranscodeEnv) (idx : ℕ) (isH265 : Bool) : Bool :=
  match attemptOutput env idx isH265 with
  | none => false
  | some s => if (s : ℚ) ≤ (targetFileSize : ℚ) * (21 / 20) then true else false

/-- Codec fallback chain of `_compress_video` lines 534-554: H.265+Opus,
then H.264+Opus, then H.264+AAC; stops at the first attempt reporting
success. -/
def firstStageWinner (env : TranscodeEnv) : Option (ℕ × Bool) :=
  if tryCompression env 0 true then some (0, true)
  else if tryCompression env 1 false then some (1, false)
  else if tryCompression env 2 false then some (2, false)
  else none

/-- The file handed back by the pipeline: the untouched original, the
first-stage compressed output, or the aggressive-stage output. -/
inductive Artifact where
  | original : Artifact
  | compressed : ℕ → Artifact
  | aggressive : ℕ → Artifact
deriving DecidableEq, Repr

/-- Aggressive bitrate from `_try_aggressive_compression` lines 990-1003:
5 MB target, 32 kbps audio, 0.9 overhead, floor 60 kbps when the base
bitrate was under 200 kbps and 100 kbps otherwise. -/
def aggressiveBitrate (duration : ℚ) (baseBitrate : ℤ) : ℤ :=
  let targetSizeBits : ℚ := ((5 * 1024 * 1024 * 8 : ℕ) : ℚ)
  let availableBitrate : ℤ := pyInt (targetSizeBits / duration * (9 / 10))
  let targetVideoBitrate : ℤ := availableBitrate - 32000
  let minVideoBitrate : ℤ := if baseBitrate < 200000 then 60000 else 100000
  max targetVideoBitrate minVideoBitrate

/-- Method `_try_aggressive_compression`: re-probe, scaled H.265 then scaled H.264,
keep the result only when it is at or under the ceiling; an over-ceiling
result is deleted and the original path returned. -/
def tryAggressiveCompression (env : TranscodeEnv) (baseBitrate : ℤ) : Artifact :=
  if env.probeFails then Artifact.original
  else if env.probeDuration ≤ 0 then Artifact.original
  else
    let vbr := aggressiveBitrate env.probeDuration baseBitrate
    let out : Option ℕ :=
      match env.encode 3 vbr with
      | some s => some s
      | none => env.encode 4 vbr
    match out with
    | none => Artifact.original
    | some s => if s ≤ targetFileSize then Artifact.aggressive s else Artifact.original

/-- Method `_compress_video`: probe, compute the base bitrate, walk the codec
chain; on success return the compressed file when it is under the ceiling,
escalate to aggressive compression when it is over, and fall back to the
original path in every failing branch (including every caught exception). -/
def compressVideo (env : TranscodeEnv) : Artifact :=
  if env.probeFails then Artifact.original
  else if ¬ env.probeHasVideo then Artifact.original
  else if env.probeDuration ≤ 0 then Artifact.original
  else
    let baseBitrate := compressVideoBitrate env.probeDuration
    match firstStageWinner env with
    | none => Artifact.original
    | some (idx, isH265) =>
      match attemptOutput env idx isH265 with
      | none => Artifact.original
      | some s =>
        if targetFileSize < s then tryAggressiveCompression env baseBitrate
        else Artifact.compressed s

/-- Method `_process_video_file`: no-op fast path for files already at or under
the target size, compression otherwise. -/
def processVideoFile (env : TranscodeEnv) : Artifact :=
  if env.origSize ≤ targetFileSize then Artifact.original else compressVideo env

/-- Byte size of the artifact the pipeline hands back. -/
def artifactSize (env : TranscodeEnv) : Artifact → ℕ
  | Artifact.original => env.origSize
  | Artifact.compressed s => s
  | Artifact.aggressive s => s

theorem attemptOutput_encode {env : TranscodeEnv} {idx : ℕ} {b : Bool} {s : ℕ}
    (h : attemptOutput env idx b = some s) : ∃ v, env.encode idx v = some s := by
  simp only [attemptOutput] at h
  split at h
  · exact absurd h (by simp)
  · split at h
    · exact absurd h (by simp)
    · exact ⟨_, h⟩

theorem tryAggressive_size_le (env : TranscodeEnv) (v : ℤ) :
    artifactSize env (tryAggressiveCompression env v) ≤ max env.origSize targetFileSize := by
  simp only [tryAggressiveCompression]
  split
  · simp [artifactSize]
  · split
    · simp [artifactSize]
    · split
      · simp [artifactSize]
      · split
        · simp only [artifactSize]; omega
        · simp [artifactSize]

theorem processVideoFile_size_le (env : TranscodeEnv) :
    artifactSize env (processVideoFile env) ≤ env.origSize := by
  simp only [processVideoFile]
  split
  · simp [artifactSize]
  · rename_i hbig
    simp only [compressVideo]
    split
    · simp [artifactSize]
    · split
      · simp [artifactSize]
      · split
        · simp [artifactSize]
        · split
          · simp [artifactSize]
          · split
            · simp [artifactSize]
            · split
              · have := tryAggressive_size_le env (compressVideoBitrate env.probeDuration)
                omega
              · simp only [artifactSize]; omega

theorem tryAggressive_exhausted (env : TranscodeEnv) (v : ℤ)
    (h : ∀ i w s, env.encode i w = some s → targetFileSize < s) :
    tryAggressiveCompression env v = Artifact.original := by
  simp only [tryAggressiveCompression]
  split
  · rfl
  · split
    · rfl
    · split
      · rfl
      · rename_i sOut hOut
        have hlt : targetFileSize < sOut := by
          cases h3 : env.encode 3 (aggressiveBitrate env.probeDuration v) with
          | some s3 =>
            rw [h3] at hOut
            simp only [] at hOut
            cases hOut
            exact h _ _ _ h3
          | none =>
            rw [h3] at hOut
            simp only [] at hOut
            exact h _ _ _ hOut
        rw [if_neg (by omega)]

theorem processVideoFile_exhausted (env : TranscodeEnv)
    (h : ∀ i v s, env.encode i v = some s → targetFileSize < s) :
    processVideoFile env = Artifact.original := by
  simp only [processVideoFile]
  split
  · rfl
  · simp only [compressVideo]
    split
    · rfl
    · split
      · rfl
      · split
        · rfl
        · split
          · rfl
          · split
            · rfl
            · rename_i sWin hWin
              obtain ⟨v, hv⟩ := attemptOutput_encode hWin
              rw [if_pos (h _ _ _ hv)]
              exact tryAggressive_exhausted env _ h

/-!  Claims about the planner and the pipeline -/

/-- C1 counterexample: on the spec's own example inputs the formula gives
`max(80000, floor(7000000*8*(19/20)/60) - 48000) = 886666 - 48000 = 838666`,
not the 886000 the spec asserts. -/
theorem C1_counterexample :
    planBitrate 60 7000000 48000 (19 / 20) 80000 = 838666 ∧ (838666 : ℤ) ≠ 886000 := by
  constructor
  · norm_num [planBitrate, pyInt]
  · norm_num

/-- C1 (amended): for every positive duration and nonnegative overhead
factor, the planner of `_try_compression` computes exactly
`max(minVideoBitrateBps, floor((targetSizeBytes*8*overheadFactor)/durationSeconds) - audioBitrateBps)`,
hence never returns less than the floor; on the spec's example inputs
(duration 60, target 7000000, audio 48000, overhead 0.95, floor 80000) the
value is 838666, not the 886000 the spec states. -/
theorem C1_theorem (d : ℚ) (T : ℕ) (a : ℤ) (ov : ℚ) (m : ℤ)
    (hd : 0 < d) (hov : 0 ≤ ov) :
    planBitrate d T a ov m = planBitrateSpec d T a ov m ∧
    m ≤ planBitrate d T a ov m ∧
    planBitrate 60 7000000 48000 (19 / 20) 80000 = 838666 := by
  refine ⟨planBitrate_eq_spec d T a ov m hd hov, planBitrate_ge_min d T a ov m, ?_⟩
  norm_num [planBitrate, pyInt]

/-- C1 witness: the amended theorem instantiated at the spec's example. -/
theorem C1_witness :
    (0 : ℚ) < 60 ∧ (0 : ℚ) ≤ 19 / 20 ∧
    planBitrate 60 7000000 48000 (19 / 20) 80000 =
      planBitrateSpec 60 7000000 48000 (19 / 20) 80000 :=
  ⟨by norm_num, by norm_num,
    (C1_theorem 60 7000000 48000 (19 / 20) 80000 (by norm_num) (by norm_num)).1⟩

/-- C9: holding the other inputs fixed (nonnegative overhead, positive
duration), the planned bitrate is monotonically non-decreasing in the
target size and non-increasing in the duration. -/
theorem C9_theorem (a m : ℤ) (ov : ℚ) (hov : 0 ≤ ov) :
    (∀ d : ℚ, 0 < d → ∀ T1 T2 : ℕ, T1 ≤ T2 →
        planBitrate d T1 a ov m ≤ planBitrate d T2 a ov m) ∧
    (∀ d1 d2 : ℚ, 0 < d1 → d1 ≤ d2 → ∀ T : ℕ,
        planBitrate d2 T a ov m ≤ planBitrate d1 T a ov m) := by
  have key : ∀ p q : ℚ, 0 ≤ p → p ≤ q →
      max (pyInt p - a) m ≤ max (pyInt q - a) m := by
    intro p q hp hpq
    have hq : 0 ≤ q := le_trans hp hpq
    refine max_le_max (sub_le_sub_right ?_ a) le_rfl
    rw [pyInt_of_nonneg hp, pyInt_of_nonneg hq]
    exact Int.floor_le_floor hpq
  constructor
  · intro d hd T1 T2 hT
    simp only [planBitrate]
    refine key _ _ (by positivity) ?_
    have h8 : (T1 : ℚ) * 8 / d ≤ (T2 : ℚ) * 8 / d := by
      have hc : (T1 : ℚ) ≤ (T2 : ℚ) := by exact_mod_cast hT
      gcongr
    exact mul_le_mul_of_nonneg_right h8 hov
  · intro d1 d2 hd1 hd T
    simp only [planBitrate]
    have hd2 : 0 < d2 := lt_of_lt_of_le hd1 hd
    refine key _ _ (by positivity) ?_
    have h8 : (T : ℚ) * 8 / d2 ≤ (T : ℚ) * 8 / d1 := by
      gcongr
    exact mul_le_mul_of_nonneg_right h8 hov

/-- C9 witness: monotonicity instantiated at concrete inputs. -/
theorem C9_witness :
    (0 : ℚ) ≤ 19 / 20 ∧ (0 : ℚ) < 60 ∧ (5000000 : ℕ) ≤ 7000000 ∧
    planBitrate 60 5000000 48000 (19 / 20) 80000 ≤
      planBitrate 60 7000000 48000 (19 / 20) 80000 :=
  ⟨by norm_num, by norm_num, by norm_num,
    (C9_theorem 48000 80000 (19 / 20) (by norm_num)).1 60 (by norm_num)
      5000000 7000000 (by norm_num)⟩

/-- Environment for the C2 scenario: a 50 MiB source, every encode attempt
(at any bitrate) producing a 9 MiB file — over the 8 MiB ceiling but well
under the original. -/
def envC2 : TranscodeEnv :=
  ⟨50 * 1024 * 1024, false, true, 120, fun _ _ => some (9 * 1024 * 1024)⟩

/-- C2 counterexample: with every attempt yielding a 9 MiB file (over the
ceiling, smaller than the 50 MiB original), the pipeline returns the
original unmodified — it never returns the best over-ceiling attempt. -/
theorem C2_counterexample :
    processVideoFile envC2 = Artifact.original ∧
    attemptOutput envC2 0 true = some (9 * 1024 * 1024) ∧
    targetFileSize < 9 * 1024 * 1024 ∧
    9 * 1024 * 1024 < envC2.origSize := by
  refine ⟨?_, ?_, ?_, ?_⟩
  · norm_num [processVideoFile, compressVideo, firstStageWinner, tryCompression,
      attemptOutput, tryAggressiveCompression, envC2, targetFileSize]
  · norm_num [attemptOutput, envC2]
  · norm_num [targetFileSize]
  · norm_num [envC2]

/-- C2 (amended): the pipeline never hands back a file larger than its
input, and when every encode attempt produces a file over the size ceiling
it returns the original source unmodified — over-ceiling attempts are
deleted, never returned, even when smaller than the original.  The model
is a total function, so no exception reaches the caller. -/
theorem C2_theorem (env : TranscodeEnv) :
    artifactSize env (processVideoFile env) ≤ env.origSize ∧
    ((∀ i v s, env.encode i v = some s → targetFileSize < s) →
      processVideoFile env = Artifact.original) :=
  ⟨processVideoFile_size_le env, processVideoFile_exhausted env⟩

/-- C2 witness: the amended theorem applied to the concrete all-attempts-
over-ceiling environment. -/
theorem C2_witness :
    artifactSize envC2 (processVideoFile envC2) ≤ envC2.origSize ∧
    processVideoFile envC2 = Artifact.original :=
  ⟨(C2_theorem envC2).1,
    (C2_theorem envC2).2 (by
      intro i v s h
      simp only [envC2] at h
      cases h
      norm_num [targetFileSize])⟩

/-- Environment with an invalid (zero) probed duration and an encoder that
would succeed if ever invoked. -/
def envC4bad : TranscodeEnv :=
  ⟨9 * 1024 * 1024, false, true, 0, fun _ _ => some 1000000⟩

/-- Environment with a valid duration whose encoder fails every attempt —
the retryable condition of the spec's taxonomy. -/
def envC4retry : TranscodeEnv :=
  ⟨9 * 1024 * 1024, false, true, 60, fun _ _ => none⟩

/-- C4 counterexample: a non-positive probed duration produces exactly the
same observable outcome (`False` from `_try_compression`) as a retryable
encoder failure, so it is not reported upward as a distinct `InvalidInput`
error. -/
theorem C4_counterexample :
    envC4bad.probeDuration ≤ 0 ∧ ¬ envC4retry.probeDuration ≤ 0 ∧
    tryCompression envC4bad 0 true = false ∧
    tryCompression envC4bad 0 true = tryCompression envC4retry 0 true := by
  refine ⟨by norm_num [envC4bad], by norm_num [envC4retry], ?_, ?_⟩
  · norm_num [tryCompression, attemptOutput, envC4bad]
  · norm_num [tryCompression, attemptOutput, envC4bad, envC4retry]

/-- C4 (amended): on a non-positive probed duration the compression code
never invokes the encoder — `_try_compression` reports failure and
`_compress_video` returns the original file — but the failure is the same
boolean `False`/original-file result used for retryable conditions, not a
distinct `InvalidInput` error. -/
theorem C4_theorem (env : TranscodeEnv) (idx : ℕ) (b : Bool)
    (h : env.probeDuration ≤ 0) :
    attemptOutput env idx b = none ∧
    tryCompression env idx b = false ∧
    compressVideo env = Artifact.original := by
  have hout : attemptOutput env idx b = none := by
    simp [attemptOutput, h]
  refine ⟨hout, ?_, ?_⟩
  · simp only [tryCompression, hout]
  · simp [compressVideo, h]

/-- C4 witness: the amended theorem applied to the zero-duration
environment. -/
theorem C4_witness :
    envC4bad.probeDuration ≤ 0 ∧
    (attemptOutput envC4bad 0 true = none ∧
     tryCompression envC4bad 0 true = false ∧
     compressVideo envC4bad = Artifact.original) :=
  ⟨by norm_num [envC4bad], C4_theorem envC4bad 0 true (by norm_num [envC4bad])⟩

/-!  Voice connect retry loop

Embeds `Player.connect` (src/utils/player.py lines 71-160).  The transport
is abstracted by a function giving each attempt's outcome; the run is
recorded as a trace of sleep and connect-attempt events so that retry
counts and inter-attempt delays are observable.  The `vcSet` flag tracks
whether `self.voice_client` is non-null at the top of the loop body (the
guard of the enhanced-cleanup block and its 3 s settle sleep).
-/

/-- Outcome of one `channel.connect` attempt, following the branches of the
try/except chain in `Player.connect`. -/
inductive ConnectOutcome where
  | success : ConnectOutcome
  | unstable : ConnectOutcome
  | notConnected : ConnectOutcome
  | timeout : ConnectOutcome
  | closed : ℕ → ConnectOutcome
  | clientAlready : ConnectOutcome
  | clientOpus : ConnectOutcome
  | clientOther : ConnectOutcome
  | otherError : Bool → ConnectOutcome
deriving DecidableEq, Repr

/-- Observable events of a `connect` run: awaited sleeps (seconds) and the
connect attempts themselves. -/
inductive CEvent where
  | sleep : ℚ → CEvent
  | attempt : ℕ → CEvent
deriving DecidableEq, Repr

/-- Backoff `delay = retry_delay * (1.5 ** (attempt - 1))`, capped at 20 seconds. -/
def backoffDelay (retryDelay : ℚ) (i : ℕ) : ℚ :=
  min (retryDelay * (3 / 2) ^ (i - 1)) 20

/-- One loop iteration of `Player.connect` per unit of fuel: cleanup sleep
when a stale handle exists, progressive backoff from the second attempt on,
then the attempt itself; a `ConnectionClosed` with code 4006 or a generic
session-related error adds the fixed 12 s sleep before the next attempt;
an opus `ClientException` aborts with failure. -/
def connectGo (outcomes : ℕ → ConnectOutcome) (maxRetries : ℕ) (retryDelay : ℚ) :
    ℕ → ℕ → Bool → Bool × List CEvent
  | 0, _, _ => (false, [])
  | fuel + 1, i, vcSet =>
    let cleanupEvts : List CEvent := if vcSet then [CEvent.sleep 3] else []
    let backoffEvts : List CEvent :=
      if 0 < i then [CEvent.sleep (backoffDelay retryDelay i)] else []
    let head := cleanupEvts ++ backoffEvts ++ [CEvent.attempt i]
    match outcomes i with
    | ConnectOutcome.success => (true, head ++ [CEvent.sleep 1])
    | ConnectOutcome.unstable =>
        let r := connectGo outcomes maxRetries retryDelay fuel (i + 1) true
        (r.1, head ++ [CEvent.sleep 1] ++ r.2)
    | ConnectOutcome.notConnected =>
        let r := connectGo outcomes maxRetries retryDelay fuel (i + 1) true
        (r.1, head ++ r.2)
    | ConnectOutcome.timeout =>
        let r := connectGo outcomes maxRetries retryDelay fuel (i + 1) false
        (r.1, head ++ r.2)
    | ConnectOutcome.closed code =>
        let post : List CEvent :=
          if code = 4006 ∧ i < maxRetries - 1 then [CEvent.sleep 12] else []
        let r := connectGo outcomes maxRetries retryDelay fuel (i + 1) false
        (r.1, head ++ post ++ r.2)
    | ConnectOutcome.clientAlready =>
        let r := connectGo outcomes maxRetries retryDelay fuel (i + 1) false
        (r.1, head ++ r.2)
    | ConnectOutcome.clientOpus => (false, head)
    | ConnectOutcome.clientOther =>
        let r := connectGo outcomes maxRetries retryDelay fuel (i + 1) false
        (r.1, head ++ r.2)
    | ConnectOutcome.otherError sess =>
        let post : List CEvent :=
          if sess = true ∧ i < maxRetries - 1 then [CEvent.sleep 12] else []
        let r := connectGo outcomes maxRetries retryDelay fuel (i + 1) false
        (r.1, head ++ post ++ r.2)

/-- Method `Player.connect`: up to `maxRetries` attempts starting with no voice
client; returns the success boolean and the event trace. -/
def connect (outcomes : ℕ → ConnectOutcome) (maxRetries : ℕ) (retryDelay : ℚ) :
    Bool × List CEvent :=
  connectGo outcomes maxRetries retryDelay maxRetries 0 false

/-- Number of connect attempts recorded in a trace. -/
def attemptCount : List CEvent → ℕ
  | [] => 0
  | CEvent.attempt _ :: rest => attemptCount rest + 1
  | CEvent.sleep _ :: rest => attemptCount rest

/-- Trace suffix following the marker of attempt `k`. -/
def eventsAfterAttempt : List CEvent → ℕ → List CEvent
  | [], _ => []
  | CEvent.attempt j :: rest, k => if j = k then rest else eventsAfterAttempt rest k
  | CEvent.sleep _ :: rest, k => eventsAfterAttempt rest k

/-- Total sleep time up to the next attempt marker. -/
def sleepsUntilNextAttempt : List CEvent → ℚ
  | [] => 0
  | CEvent.attempt _ :: _ => 0
  | CEvent.sleep d :: rest => d + sleepsUntilNextAttempt rest

/-- Seconds waited between attempt `k` and attempt `k + 1` of a trace. -/
def interAttemptDelay (evts : List CEvent) (k : ℕ) : ℚ :=
  sleepsUntilNextAttempt (eventsAfterAttempt evts k)

theorem attemptCount_append (xs ys : List CEvent) :
    attemptCount (xs ++ ys) = attemptCount xs + attemptCount ys := by
  induction xs with
  | nil => simp [attemptCount]
  | cons e rest ih =>
    cases e with
    | sleep d => simp [attemptCount, ih]
    | attempt j => simp [attemptCount, ih]; omega

theorem attemptCount_sleep_list (c : Prop) [Decidable c] (d : ℚ) :
    attemptCount (if c then [CEvent.sleep d] else []) = 0 := by
  split <;> rfl

theorem connectGo_attemptCount (outcomes : ℕ → ConnectOutcome) (mr : ℕ) (rd : ℚ) :
    ∀ fuel i vcSet, attemptCount (connectGo outcomes mr rd fuel i vcSet).2 ≤ fuel := by
  intro fuel
  induction fuel with
  | zero => intro i vcSet; simp [connectGo, attemptCount]
  | succ n ih =>
    intro i vcSet
    cases ho : outcomes i <;>
      simp [connectGo, ho, attemptCount_append, attemptCount_sleep_list, attemptCount] <;>
      first
        | (have h1 := ih (i + 1) true; omega)
        | (have h2 := ih (i + 1) false; omega)

theorem connectGo_result_false (outcomes : ℕ → ConnectOutcome) (mr : ℕ) (rd : ℚ) :
    ∀ fuel i vcSet,
      (∀ j, i ≤ j → j < i + fuel → outcomes j ≠ ConnectOutcome.success) →
      (connectGo outcomes mr rd fuel i vcSet).1 = false := by
  intro fuel
  induction fuel with
  | zero => intro i vcSet h; rfl
  | succ n ih =>
    intro i vcSet h
    have hnext : ∀ j, i + 1 ≤ j → j < i + 1 + n → outcomes j ≠ ConnectOutcome.success :=
      fun j h1 h2 => h j (by omega) (by omega)
    have hself : outcomes i ≠ ConnectOutcome.success := h i (by omega) (by omega)
    cases ho : outcomes i with
    | success => exact absurd ho hself
    | unstable => simp [connectGo, ho]; exact ih (i + 1) true hnext
    | notConnected => simp [connectGo, ho]; exact ih (i + 1) true hnext
    | timeout => simp [connectGo, ho]; exact ih (i + 1) false hnext
    | closed code => simp [connectGo, ho]; exact ih (i + 1) false hnext
    | clientAlready => simp [connectGo, ho]; exact ih (i + 1) false hnext
    | clientOpus => simp [connectGo, ho]
    | clientOther => simp [connectGo, ho]; exact ih (i + 1) false hnext
    | otherError sess => simp [connectGo, ho]; exact ih (i + 1) false hnext

/-!  Claims about the connect loop -/

/-- The C3 scenario: session-invalidation (`ConnectionClosed` code 4006)
on attempts 1 and 2, success on attempt 3. -/
def outcomesC3 : ℕ → ConnectOutcome :=
  fun i => if i < 2 then ConnectOutcome.closed 4006 else ConnectOutcome.success

/-- C3 counterexample: in the claimed scenario the delay between attempt 2
and attempt 3 is 16.5 s, not the 12 s session-invalidation backoff alone —
the standard multiplicative backoff is also waited. -/
theorem C3_counterexample :
    (connect outcomesC3 5 3).1 = true ∧
    interAttemptDelay (connect outcomesC3 5 3).2 1 = 33 / 2 ∧
    (33 / 2 : ℚ) ≠ 12 := by
  refine ⟨?_, ?_, by norm_num⟩
  · norm_num [connect, connectGo, outcomesC3]
  · norm_num [connect, connectGo, outcomesC3, interAttemptDelay, eventsAfterAttempt,
      sleepsUntilNextAttempt, backoffDelay]

/-- C3 (amended): with session-invalidation failures on attempts 1 and 2
and success on attempt 3 (maxRetries 5, base delay 3), `connect` returns
true, and the delay between attempt 2 and attempt 3 is the fixed 12 s
session-invalidation backoff plus the standard multiplicative backoff
(3 · 1.5 = 4.5 s): the session-specific delay is added to, not substituted
for, the standard one. -/
theorem C3_theorem :
    (connect outcomesC3 5 3).1 = true ∧
    interAttemptDelay (connect outcomesC3 5 3).2 1 = 12 + backoffDelay 3 2 ∧
    backoffDelay 3 2 = 9 / 2 := by
  refine ⟨?_, ?_, by norm_num [backoffDelay]⟩
  · norm_num [connect, connectGo, outcomesC3]
  · norm_num [connect, connectGo, outcomesC3, interAttemptDelay, eventsAfterAttempt,
      sleepsUntilNextAttempt, backoffDelay]

/-- C5: for every outcome sequence, `connect` performs at most `maxRetries`
attempts, and when no attempt within the bound succeeds it returns false;
the model is a total function into `Bool`, so no transport error escapes
as an exception. -/
theorem C5_theorem (outcomes : ℕ → ConnectOutcome) (maxRetries : ℕ) (retryDelay : ℚ) :
    attemptCount (connect outcomes maxRetries retryDelay).2 ≤ maxRetries ∧
    ((∀ i, i < maxRetries → outcomes i ≠ ConnectOutcome.success) →
      (connect outcomes maxRetries retryDelay).1 = false) := by
  constructor
  · exact connectGo_attemptCount outcomes maxRetries retryDelay maxRetries 0 false
  · intro h
    exact connectGo_result_false outcomes maxRetries retryDelay maxRetries 0 false
      (fun j h1 h2 => h j (by omega))

/-- C5 witness: every attempt timing out, three retries — at most three
attempts and a false result. -/
theorem C5_witness :
    attemptCount (connect (fun _ => ConnectOutcome.timeout) 3 3).2 ≤ 3 ∧
    (connect (fun _ => ConnectOutcome.timeout) 3 3).1 = false :=
  ⟨(C5_theorem (fun _ => ConnectOutcome.timeout) 3 3).1,
   (C5_theorem (fun _ => ConnectOutcome.timeout) 3 3).2 (fun i _ => by simp)⟩

/-!  Playback queue

Embeds `Queue` from src/utils/queue.py: a bounded FIFO whose `add` refuses
when `len(self._queue) >= self.max_size`.
-/

/-- Default `MAX_QUEUE_SIZE` from config.py. -/
def MAX_QUEUE_SIZE : ℕ := 20

structure Queue (α : Type) where
  maxSize : ℕ
  items : List α
deriving Repr

/-- Method `Queue.add`: refuse when full, otherwise append at the tail. -/
def Queue.add {α : Type} (q : Queue α) (song : α) : Bool × Queue α :=
  if q.maxSize ≤ q.items.length then (false, q)
  else (true, { q with items := q.items ++ [song] })

/-- C6: adding to a queue at capacity returns false and leaves the queue
(size and contents) unchanged; adding below capacity returns true and grows
the size by exactly one; `add` preserves the `size ≤ capacity` invariant. -/
theorem C6_theorem {α : Type} (q : Queue α) (song : α) :
    (q.items.length = q.maxSize → Queue.add q song = (false, q)) ∧
    (q.items.length < q.maxSize →
      (Queue.add q song).1 = true ∧
      (Queue.add q song).2.items.length = q.items.length + 1) ∧
    (q.items.length ≤ q.maxSize → (Queue.add q song).2.items.length ≤ q.maxSize) := by
  refine ⟨?_, ?_, ?_⟩
  · intro h
    simp [Queue.add, le_of_eq h.symm]
  · intro h
    simp [Queue.add, not_le.mpr h]
  · intro h
    by_cases hc : q.maxSize ≤ q.items.length
    · simp [Queue.add, hc, h]
    · simp [Queue.add, hc]
      omega

/-- C6 witness: a full 2-slot queue rejects, a 1-of-2 queue accepts. -/
theorem C6_witness :
    Queue.add (⟨2, [7, 8]⟩ : Queue ℕ) 9 = (false, ⟨2, [7, 8]⟩) ∧
    (Queue.add (⟨2, [7]⟩ : Queue ℕ) 9).1 = true ∧
    (Queue.add (⟨2, [7]⟩ : Queue ℕ) 9).2.items.length = 1 + 1 :=
  ⟨(C6_theorem ⟨2, [7, 8]⟩ 9).1 rfl, (C6_theorem ⟨2, [7]⟩ 9).2.1 (by norm_num)⟩

/-!  Per-guild registry

Embeds `MusicCog._get_player` / `_get_queue`: dict-backed insert-if-absent
caches keyed by guild id.  Python object identity is modelled by allocation:
each constructed instance carries a fresh numeric id, so reference equality
of lookups becomes equality of instance ids.
-/

/-- Lookup in the dict, first match by key. -/
def assoc : List (ℕ × ℕ) → ℕ → Option ℕ
  | [], _ => none
  | (k, v) :: rest, g => if k = g then some v else assoc rest g

/-- One `Dict[int, T]` cache of instances together with the next fresh
instance id. -/
structure AllocMap where
  entries : List (ℕ × ℕ)
  nextId : ℕ
deriving Repr

/-- Well-formedness of a cache: all cached instance ids are distinct and
below the allocation counter.  Holds for the empty cache and is preserved
by every lookup. -/
def AllocMap.WF (m : AllocMap) : Prop :=
  (m.entries.map Prod.snd).Nodup ∧ ∀ p ∈ m.entries, p.2 < m.nextId

/-- Lookup-or-create: `if guild.id not in cache: cache[guild.id] = T(); return cache[guild.id]`. -/
def getInstance (m : AllocMap) (g : ℕ) : ℕ × AllocMap :=
  match assoc m.entries g with
  | some pid => (pid, m)
  | none => (m.nextId, ⟨(g, m.nextId) :: m.entries, m.nextId + 1⟩)

/-- The registry owned by the cog: `self.players` and `self.queues`. -/
structure Registry where
  players : AllocMap
  queues : AllocMap
deriving Repr

/-- Method `MusicCog._get_player`. -/
def getPlayer (r : Registry) (g : ℕ) : ℕ × Registry :=
  let res := getInstance r.players g
  (res.1, { r with players := res.2 })

/-- Method `MusicCog._get_queue`. -/
def getQueue (r : Registry) (g : ℕ) : ℕ × Registry :=
  let res := getInstance r.queues g
  (res.1, { r with queues := res.2 })

/-- The registry at cog construction: both caches empty. -/
def emptyRegistry : Registry := ⟨⟨[], 0⟩, ⟨[], 0⟩⟩

theorem assoc_mem {l : List (ℕ × ℕ)} {g v : ℕ} (h : assoc l g = some v) :
    v ∈ l.map Prod.snd := by
  induction l with
  | nil => simp [assoc] at h
  | cons p rest ih =>
    obtain ⟨k, w⟩ := p
    simp only [assoc] at h
    by_cases hk : k = g
    · rw [if_pos hk] at h
      cases h
      simp
    · rw [if_neg hk] at h
      simp [ih h]

theorem assoc_inj {l : List (ℕ × ℕ)} {g1 g2 v1 v2 : ℕ}
    (hnd : (l.map Prod.snd).Nodup) (hne : g1 ≠ g2)
    (h1 : assoc l g1 = some v1) (h2 : assoc l g2 = some v2) : v1 ≠ v2 := by
  induction l with
  | nil => simp [assoc] at h1
  | cons p rest ih =>
    obtain ⟨k, w⟩ := p
    simp only [List.map_cons, List.nodup_cons] at hnd
    simp only [assoc] at h1 h2
    by_cases hk1 : k = g1
    · rw [if_pos hk1] at h1
      cases h1
      rw [if_neg (by rw [hk1]; exact hne)] at h2
      intro hcon
      exact hnd.1 (hcon ▸ assoc_mem h2)
    · rw [if_neg hk1] at h1
      by_cases hk2 : k = g2
      · rw [if_pos hk2] at h2
        cases h2
        intro hcon
        exact hnd.1 (hcon ▸ assoc_mem h1)
      · rw [if_neg hk2] at h2
        exact ih hnd.2 h1 h2

theorem assoc_lt {m : AllocMap} (hWF : m.WF) {g v : ℕ}
    (h : assoc m.entries g = some v) : v < m.nextId := by
  have hv := assoc_mem h
  simp only [List.mem_map] at hv
  obtain ⟨p, hp, hpv⟩ := hv
  exact hpv ▸ hWF.2 p hp

theorem getInstance_WF {m : AllocMap} (hWF : m.WF) (g : ℕ) :
    (getInstance m g).2.WF := by
  unfold getInstance
  cases ha : assoc m.entries g with
  | some v => exact hWF
  | none =>
    simp only []
    refine ⟨?_, ?_⟩
    · simp only [List.map_cons, List.nodup_cons]
      refine ⟨?_, hWF.1⟩
      intro hmem
      simp only [List.mem_map] at hmem
      obtain ⟨p, hp, hpv⟩ := hmem
      exact absurd (hpv ▸ hWF.2 p hp) (lt_irrefl _)
    · intro p hp
      rcases List.mem_cons.mp hp with h | h
      · rw [h]
        exact Nat.lt_succ_self _
      · exact Nat.lt_succ_of_lt (hWF.2 p h)

theorem getInstance_idem (m : AllocMap) (g : ℕ) :
    getInstance (getInstance m g).2 g = ((getInstance m g).1, (getInstance m g).2) := by
  unfold getInstance
  cases ha : assoc m.entries g with
  | some v => simp [ha]
  | none => simp [assoc]

theorem getInstance_distinct {m : AllocMap} (hWF : m.WF) {g1 g2 : ℕ} (hne : g1 ≠ g2) :
    (getInstance m g1).1 ≠ (getInstance (getInstance m g1).2 g2).1 := by
  unfold getInstance
  cases h1 : assoc m.entries g1 with
  | some v1 =>
    simp only []
    cases h2 : assoc m.entries g2 with
    | some v2 => simpa using assoc_inj hWF.1 hne h1 h2
    | none => simpa using Nat.ne_of_lt (assoc_lt hWF h1)
  | none =>
    simp only [assoc, if_neg hne]
    cases h2 : assoc m.entries g2 with
    | some v2 =>
      have := assoc_lt hWF h2
      simpa using Nat.ne_of_gt this
    | none => simp

theorem getInstance_fresh {m : AllocMap} {g : ℕ} (h : assoc m.entries g = none) :
    (getInstance m g).1 = m.nextId ∧
    assoc (getInstance m g).2.entries g = some m.nextId := by
  unfold getInstance
  rw [h]
  simp [assoc]

theorem getPlayer_idem (r : Registry) (g : ℕ) :
    getPlayer (getPlayer r g).2 g = ((getPlayer r g).1, (getPlayer r g).2) := by
  have h := getInstance_idem r.players g
  simp only [getPlayer]
  rw [h]

theorem getQueue_idem (r : Registry) (g : ℕ) :
    getQueue (getQueue r g).2 g = ((getQueue r g).1, (getQueue r g).2) := by
  have h := getInstance_idem r.queues g
  simp only [getQueue]
  rw [h]

/-- C7: for distinct guild ids the player lookup (and the queue lookup)
yields distinct instances; looking the same guild up again yields the very
same instance and leaves the registry unchanged; an absent guild is
constructed lazily on first access and cached; well-formedness of the
cache is preserved. -/
theorem C7_theorem (r : Registry) (g1 g2 : ℕ)
    (hp : r.players.WF) (hq : r.queues.WF) (hne : g1 ≠ g2) :
    ((getPlayer r g1).1 ≠ (getPlayer (getPlayer r g1).2 g2).1 ∧
     getPlayer (getPlayer r g1).2 g1 = ((getPlayer r g1).1, (getPlayer r g1).2) ∧
     (getPlayer r g1).2.players.WF ∧
     (assoc r.players.entries g1 = none →
       (getPlayer r g1).1 = r.players.nextId ∧
       assoc (getPlayer r g1).2.players.entries g1 = some r.players.nextId)) ∧
    ((getQueue r g1).1 ≠ (getQueue (getQueue r g1).2 g2).1 ∧
     getQueue (getQueue r g1).2 g1 = ((getQueue r g1).1, (getQueue r g1).2)) := by
  refine ⟨⟨?_, getPlayer_idem r g1, ?_, ?_⟩, ⟨?_, getQueue_idem r g1⟩⟩
  · exact getInstance_distinct hp hne
  · exact getInstance_WF hp g1
  · intro h
    exact getInstance_fresh h
  · exact getInstance_distinct hq hne

/-- C7 witness: the empty registry, guilds 1 and 2. -/
theorem C7_witness :
    emptyRegistry.players.WF ∧ (1 : ℕ) ≠ 2 ∧
    (getPlayer emptyRegistry 1).1 ≠ (getPlayer (getPlayer emptyRegistry 1).2 2).1 :=
  ⟨by simp [AllocMap.WF, emptyRegistry], by norm_num,
   (C7_theorem emptyRegistry 1 2 (by simp [AllocMap.WF, emptyRegistry])
     (by simp [AllocMap.WF, emptyRegistry]) (by norm_num)).1.1⟩

/-!  Player session state

Embeds the state-mutating parts of `Player` (src/utils/player.py):
`stop`, `disconnect` and `set_volume`.  The discord voice-client handle is
opaque, so it is modelled by `Option Unit` (null or held); the disconnect
timer task is `none` (no task), `some true` (pending) or `some false`
(already fired), matching `_cancel_disconnect_timer`'s
`if self._disconnect_timer and not self._disconnect_timer.done()` guard.
-/

/-- Default `DEFAULT_VOLUME` from config.py. -/
def DEFAULT_VOLUME : ℚ := 1 / 2

structure PlayerState where
  voiceClient : Option Unit
  isPlaying : Bool
  isPaused : Bool
  volume : ℚ
  currentSong : Option ℕ
  disconnectTimer : Option Bool
  repeatMode : Bool
deriving Repr

/-- State after `Player.__init__`. -/
def initPlayer : PlayerState :=
  ⟨none, false, false, DEFAULT_VOLUME, none, none, false⟩

/-- Method `Player.stop`. -/
def PlayerState.stop (s : PlayerState) : PlayerState :=
  { s with isPlaying := false, isPaused := false, currentSong := none }

/-- Method `Player._cancel_disconnect_timer`: cancel (and null) the timer only
when one exists and has not completed. -/
def cancelDisconnectTimer (s : PlayerState) : PlayerState :=
  match s.disconnectTimer with
  | some true => { s with disconnectTimer := none }
  | _ => s

/-- Method `Player.disconnect`: when a handle is held, stop playback and release
it (exceptions swallowed, handle nulled in `finally`); then unconditionally
clear the playing/paused flags and current song and cancel the timer.
`forceCleanup` only adds a settle sleep and does not affect state. -/
def PlayerState.disconnect (s : PlayerState) (forceCleanup : Bool) : PlayerState :=
  let s1 := if s.voiceClient.isSome then { s.stop with voiceClient := none } else s
  cancelDisconnectTimer { s1 with isPlaying := false, isPaused := false, currentSong := none }

/-- Method `Player.set_volume`: `self.volume = max(0.0, min(1.0, volume))`. -/
def PlayerState.setVolume (s : PlayerState) (v : ℚ) : PlayerState :=
  { s with volume := max 0 (min 1 v) }

/-- A session on which `disconnect` has nothing to do: handle null, not
playing, nothing current, no pending timer. -/
def PlayerState.Disconnected (s : PlayerState) : Prop :=
  s.voiceClient = none ∧ s.isPlaying = false ∧ s.isPaused = false ∧
  s.currentSong = none ∧ s.disconnectTimer ≠ some true

theorem disconnect_noop {s : PlayerState} (h : s.Disconnected) (f : Bool) :
    s.disconnect f = s := by
  obtain ⟨vc, ip, ps, vol, cs, dt, rm⟩ := s
  obtain ⟨h1, h2, h3, h4, h5⟩ := h
  simp only at h1 h2 h3 h4 h5
  subst h1 h2 h3 h4
  simp only [PlayerState.disconnect, PlayerState.stop, cancelDisconnectTimer]
  cases dt with
  | none => rfl
  | some b =>
    cases b with
    | false => rfl
    | true => exact absurd rfl h5

theorem disconnect_fields (s : PlayerState) (f : Bool) :
    (s.disconnect f).voiceClient = none ∧ (s.disconnect f).isPlaying = false ∧
    (s.disconnect f).isPaused = false ∧ (s.disconnect f).currentSong = none ∧
    (s.disconnect f).disconnectTimer ≠ some true ∧
    (s.disconnect f).volume = s.volume := by
  obtain ⟨vc, ip, ps, vol, cs, dt, rm⟩ := s
  simp only [PlayerState.disconnect, PlayerState.stop, cancelDisconnectTimer]
  cases vc <;> cases dt <;> simp
  all_goals rename_i b; cases b <;> simp

/-- C8: `disconnect` on an already-disconnected session is a no-op (and
raises nothing — the model is total); a second `disconnect` right after a
first is a no-op; and after any `disconnect` the handle is released,
playback flags and current item are cleared and no timer is pending. -/
theorem C8_theorem (s : PlayerState) (f f2 : Bool) :
    (s.Disconnected → s.disconnect f = s) ∧
    (s.disconnect f).disconnect f2 = s.disconnect f ∧
    (s.disconnect f).voiceClient = none ∧
    (s.disconnect f).isPlaying = false ∧
    (s.disconnect f).isPaused = false ∧
    (s.disconnect f).currentSong = none ∧
    (s.disconnect f).disconnectTimer ≠ some true := by
  have hf := disconnect_fields s f
  refine ⟨fun h => disconnect_noop h f, ?_, hf.1, hf.2.1, hf.2.2.1, hf.2.2.2.1,
    hf.2.2.2.2.1⟩
  exact disconnect_noop
    ⟨hf.1, hf.2.1, hf.2.2.1, hf.2.2.2.1, hf.2.2.2.2.1⟩ f2

/-- C8 witness: the freshly constructed player is already disconnected and
`disconnect` leaves it untouched, twice. -/
theorem C8_witness :
    initPlayer.Disconnected ∧
    initPlayer.disconnect true = initPlayer ∧
    (initPlayer.disconnect true).disconnect true = initPlayer.disconnect true := by
  have hd : initPlayer.Disconnected := ⟨rfl, rfl, rfl, rfl, by simp [initPlayer]⟩
  exact ⟨hd, (C8_theorem initPlayer true true).1 hd, (C8_theorem initPlayer true true).2.1⟩

/-- C10: `set_volume` clamps every rational input into `[0, 1]` (negative
inputs store 0, inputs above 1 store 1, in-range inputs store themselves),
and the other state operations (`stop`, `disconnect`) leave the volume
untouched, so `0 ≤ volume ≤ 1` is preserved by every operation. -/
theorem C10_theorem (s : PlayerState) (f : Bool) (v : ℚ) :
    0 ≤ (s.setVolume v).volume ∧ (s.setVolume v).volume ≤ 1 ∧
    (v < 0 → (s.setVolume v).volume = 0) ∧
    (1 < v → (s.setVolume v).volume = 1) ∧
    (0 ≤ v → v ≤ 1 → (s.setVolume v).volume = v) ∧
    (s.stop).volume = s.volume ∧
    (s.disconnect f).volume = s.volume ∧
    0 ≤ DEFAULT_VOLUME ∧ DEFAULT_VOLUME ≤ 1 := by
  refine ⟨le_max_left 0 _, max_le (by norm_num) (min_le_left 1 v), ?_, ?_, ?_, rfl,
    (disconnect_fields s f).2.2.2.2.2, by norm_num [DEFAULT_VOLUME], by norm_num [DEFAULT_VOLUME]⟩
  · intro h
    simp only [PlayerState.setVolume]
    rw [min_eq_right (by linarith), max_eq_left (by linarith)]
  · intro h
    simp only [PlayerState.setVolume]
    rw [min_eq_left (by linarith), max_eq_right (by norm_num)]
  · intro h0 h1
    simp only [PlayerState.setVolume]
    rw [min_eq_right h1, max_eq_right h0]

/-- C10 witness: an out-of-range input (1.5) is clamped to 1. -/
theorem C10_witness :
    (1 : ℚ) < 3 / 2 ∧ (initPlayer.setVolume (3 / 2)).volume = 1 :=
  ⟨by norm_num, (C10_theorem initPlayer true (3 / 2)).2.2.2.1 (by norm_num)⟩

end MusicBot
